import Mathlib

/-!
Shallow embedding of the authentication, session and lobby core of the
gq-server repository (src/gq-server/src). Strings manipulated by the code
are modelled as lists of characters; Uuids are modelled as their 16-byte
representation (lists of naturals below 256); timestamps are seconds since
the epoch as naturals. Collaborator libraries (sha3, base64, uuid, chrono,
pasetors) are modelled by executable functions that honour the contracts
the repository relies on, as documented on each definition.
-/

/- ### Decimal serialization of naturals

Models the textual timestamp carried in the PASETO `exp` claim: the code
formats a `DateTime` with chrono and parses it back with `str::parse`.
The chrono RFC3339 encode/parse pair is modelled as a canonical decimal
rendering of seconds since the epoch together with its parser. -/

/-- One decimal digit as a character. -/
def digitChar (d : Nat) : Char := Char.ofNat (48 + d)

/-- Decimal value of a character, when it is a digit. -/
def charDigit (c : Char) : Option Nat :=
  if 48 ≤ c.toNat ∧ c.toNat ≤ 57 then some (c.toNat - 48) else none

/-- Canonical decimal rendering of a natural number. -/
def natToChars (n : Nat) : List Char :=
  if n = 0 then [digitChar 0] else (Nat.digits 10 n).reverse.map digitChar

/-- Accumulating decimal parser. -/
def parseDigitsFrom (a : Nat) : List Char → Option Nat
  | [] => some a
  | c :: cs =>
    match charDigit c with
    | some d => parseDigitsFrom (a * 10 + d) cs
    | none => none

/-- Decimal parser for a nonempty digit string. -/
def parseNatChars (cs : List Char) : Option Nat :=
  if cs.isEmpty then none else parseDigitsFrom 0 cs

theorem charDigit_digitChar (d : Nat) (h : d < 10) :
    charDigit (digitChar d) = some d := by
  interval_cases d <;> decide

theorem parseDigitsFrom_digits (ds : List Nat) (hds : ∀ d ∈ ds, d < 10) :
    ∀ a, parseDigitsFrom a (ds.map digitChar) =
      some (ds.foldl (fun x d => x * 10 + d) a) := by
  induction ds with
  | nil => intro a; rfl
  | cons d t ih =>
    intro a
    have hd : d < 10 := hds d (List.mem_cons_self ..)
    have ht : ∀ x ∈ t, x < 10 := fun x hx => hds x (List.mem_cons_of_mem _ hx)
    simp only [List.map_cons, parseDigitsFrom, charDigit_digitChar d hd,
      List.foldl_cons]
    exact ih ht (a * 10 + d)

theorem foldl_reverse_ofDigits (l : List Nat) :
    ∀ a, l.reverse.foldl (fun x d => x * 10 + d) a =
      a * 10 ^ l.length + Nat.ofDigits 10 l := by
  induction l with
  | nil => intro a; simp
  | cons d t ih =>
    intro a
    simp only [List.reverse_cons, List.foldl_append, List.foldl_cons,
      List.foldl_nil, ih a, Nat.ofDigits_cons, List.length_cons]
    ring

/-- The decimal rendering parses back to the original number: the
round-trip the code relies on for the `exp` claim. -/
theorem parseNatChars_natToChars (n : Nat) :
    parseNatChars (natToChars n) = some n := by
  by_cases h : n = 0
  · subst h; decide
  · have hne : Nat.digits 10 n ≠ [] := Nat.digits_ne_nil_iff_ne_zero.mpr h
    have hlt : ∀ d ∈ (Nat.digits 10 n).reverse, d < 10 := by
      intro d hd
      exact Nat.digits_lt_base (by norm_num) (List.mem_reverse.mp hd)
    have hmapne : ((Nat.digits 10 n).reverse.map digitChar).isEmpty = false := by
      simp [hne]
    unfold natToChars
    rw [if_neg h]
    unfold parseNatChars
    rw [hmapne]
    simp only [Bool.false_eq_true, if_false]
    rw [parseDigitsFrom_digits _ hlt 0, foldl_reverse_ofDigits]
    simp [Nat.ofDigits_digits]

/- ### Hexadecimal rendering of byte strings

Models the `Display`/`FromStr` pair of the uuid crate used for `UserId`:
`UserId` is displayed into the PASETO `iss` claim and parsed back from it.
The hyphens of the canonical uuid form are immaterial to the round-trip
and are omitted. -/

/-- One hexadecimal digit as a character. -/
def hexChar (d : Nat) : Char := "0123456789abcdef".toList.getD (d % 16) '0'

/-- Hexadecimal value of a character. -/
def hexVal (c : Char) : Option Nat := "0123456789abcdef".toList.findIdx? (· == c)

/-- Hexadecimal rendering of a byte string (two characters per byte). -/
def bytesToHex (bs : List Nat) : List Char :=
  bs.foldr (fun b acc => hexChar (b / 16) :: hexChar (b % 16) :: acc) []

/-- Parses pairs of hexadecimal characters back into bytes. -/
def parseHexBytes : List Char → Option (List Nat)
  | [] => some []
  | c1 :: c2 :: rest =>
    match hexVal c1, hexVal c2, parseHexBytes rest with
    | some h, some l, some bs => some ((h * 16 + l) :: bs)
    | _, _, _ => none
  | [_] => none

theorem hexVal_hexChar (d : Nat) (h : d < 16) : hexVal (hexChar d) = some d := by
  interval_cases d <;> decide

/-- The hexadecimal rendering of a byte string parses back to the original
bytes: the round-trip the code relies on for the `iss` claim. -/
theorem parseHexBytes_bytesToHex (bs : List Nat) (h : ∀ b ∈ bs, b < 256) :
    parseHexBytes (bytesToHex bs) = some bs := by
  induction bs with
  | nil => rfl
  | cons b t ih =>
    have hb : b < 256 := h b (List.mem_cons_self ..)
    have ht : ∀ x ∈ t, x < 256 := fun x hx => h x (List.mem_cons_of_mem _ hx)
    have h1 : b / 16 < 16 := by omega
    have h2 : b % 16 < 16 := by omega
    simp only [bytesToHex, List.foldr_cons] at *
    simp only [parseHexBytes, hexVal_hexChar _ h1, hexVal_hexChar _ h2, ih ht]
    have : b / 16 * 16 + b % 16 = b := by omega
    rw [this]

/- ### Base64

Models the base64 crate used by the code. `AdHocToken::create`,
`UserToken::generate` and `AdHocToken::authenticate` all use the
`BASE64_STANDARD` engine (standard alphabet, mandatory canonical padding).
The URL-safe alphabet appears only in the specification; it is defined
here as well so the two can be compared. -/

/-- The standard base64 alphabet, as used by BASE64_STANDARD in the code. -/
def b64StdAlphabet : List Char :=
  "ABCDEFGHIJKLMNOPQRSTUVWXYZabcdefghijklmnopqrstuvwxyz0123456789+/".toList

/-- Modelled from the spec: the URL-safe base64 alphabet the specification
prescribes for the external credential form (`base64url`). -/
def b64UrlAlphabet : List Char :=
  "ABCDEFGHIJKLMNOPQRSTUVWXYZabcdefghijklmnopqrstuvwxyz0123456789-_".toList

/-- Character for a sextet in a given alphabet. -/
def b64chrWith (alpha : List Char) (s : Nat) : Char := alpha.getD (s % 64) 'A'

/-- Base64 encoding over an arbitrary 64-character alphabet, processing
input bytes in chunks of three and padding the final chunk with `=`. -/
def b64EncodeWith (alpha : List Char) : List Nat → List Char
  | [] => []
  | [b1] => [b64chrWith alpha (b1 / 4), b64chrWith alpha (b1 % 4 * 16), '=', '=']
  | [b1, b2] => [b64chrWith alpha (b1 / 4), b64chrWith alpha (b1 % 4 * 16 + b2 / 16),
      b64chrWith alpha (b2 % 16 * 4), '=']
  | b1 :: b2 :: b3 :: rest =>
    b64chrWith alpha (b1 / 4) :: b64chrWith alpha (b1 % 4 * 16 + b2 / 16) ::
      b64chrWith alpha (b2 % 16 * 4 + b3 / 64) :: b64chrWith alpha (b3 % 64) ::
        b64EncodeWith alpha rest

/-- BASE64_STANDARD encoding, as the code calls it. -/
def b64Encode (bs : List Nat) : List Char := b64EncodeWith b64StdAlphabet bs

/-- Modelled from the spec: the `base64url` encoding named by the
specification for the external credential form. -/
def b64UrlEncode (bs : List Nat) : List Char := b64EncodeWith b64UrlAlphabet bs

/-- Index of a character in the standard alphabet. -/
def b64CharIdx (c : Char) : Option Nat := b64StdAlphabet.findIdx? (· == c)

/-- BASE64_STANDARD decoding: chunks of four characters, canonical padding
required, trailing bits must be zero (the engine's default). -/
def b64Decode : List Char → Option (List Nat)
  | [] => some []
  | c1 :: c2 :: c3 :: c4 :: rest =>
    match b64CharIdx c1, b64CharIdx c2 with
    | some s1, some s2 =>
      if c3 = '=' then
        if c4 = '=' ∧ rest = [] ∧ s2 % 16 = 0 then some [s1 * 4 + s2 / 16] else none
      else
        match b64CharIdx c3 with
        | some s3 =>
          if c4 = '=' then
            if rest = [] ∧ s3 % 4 = 0 then
              some [s1 * 4 + s2 / 16, s2 % 16 * 16 + s3 / 4]
            else none
          else
            match b64CharIdx c4, b64Decode rest with
            | some s4, some bs =>
              some ((s1 * 4 + s2 / 16) :: (s2 % 16 * 16 + s3 / 4) :: (s3 % 4 * 64 + s4) :: bs)
            | _, _ => none
        | none => none
    | _, _ => none
  | _ => none

theorem b64CharIdx_chr (s : Nat) (h : s < 64) :
    b64CharIdx (b64chrWith b64StdAlphabet s) = some s := by
  have : s % 64 = s := Nat.mod_eq_of_lt h
  have hfin : ∀ t : Fin 64, b64CharIdx (b64chrWith b64StdAlphabet t) = some t.val := by
    decide
  have := hfin ⟨s, h⟩
  simpa using this

theorem b64chrWith_std_ne_pad (s : Nat) : b64chrWith b64StdAlphabet s ≠ '=' := by
  have hmod : s % 64 < 64 := Nat.mod_lt _ (by norm_num)
  have hfin : ∀ t : Fin 64, b64chrWith b64StdAlphabet t.val ≠ '=' := by decide
  have h := hfin ⟨s % 64, hmod⟩
  simpa [b64chrWith, Nat.mod_eq_of_lt hmod] using h

theorem b64chrWith_std_ne_dot (s : Nat) : b64chrWith b64StdAlphabet s ≠ '.' := by
  have hmod : s % 64 < 64 := Nat.mod_lt _ (by norm_num)
  have hfin : ∀ t : Fin 64, b64chrWith b64StdAlphabet t.val ≠ '.' := by decide
  have h := hfin ⟨s % 64, hmod⟩
  simpa [b64chrWith, Nat.mod_eq_of_lt hmod] using h

/-- The standard encoding never emits a dot, so splitting the credential
at the first dot recovers the two halves. -/
theorem b64Encode_no_dot (bs : List Nat) : '.' ∉ b64Encode bs := by
  unfold b64Encode
  match bs with
  | [] => simp [b64EncodeWith]
  | [b1] =>
    intro hmem
    simp only [b64EncodeWith, List.mem_cons, List.not_mem_nil, or_false] at hmem
    rcases hmem with h | h | h | h
    · exact b64chrWith_std_ne_dot _ h.symm
    · exact b64chrWith_std_ne_dot _ h.symm
    · exact absurd h (by decide)
    · exact absurd h (by decide)
  | [b1, b2] =>
    intro hmem
    simp only [b64EncodeWith, List.mem_cons, List.not_mem_nil, or_false] at hmem
    rcases hmem with h | h | h | h
    · exact b64chrWith_std_ne_dot _ h.symm
    · exact b64chrWith_std_ne_dot _ h.symm
    · exact b64chrWith_std_ne_dot _ h.symm
    · exact absurd h (by decide)
  | b1 :: b2 :: b3 :: rest =>
    have ih := b64Encode_no_dot rest
    unfold b64Encode at ih
    intro hmem
    simp only [b64EncodeWith, List.mem_cons] at hmem
    rcases hmem with h | h | h | h | h
    · exact b64chrWith_std_ne_dot _ h.symm
    · exact b64chrWith_std_ne_dot _ h.symm
    · exact b64chrWith_std_ne_dot _ h.symm
    · exact b64chrWith_std_ne_dot _ h.symm
    · exact ih h

/-- Decoding inverts encoding on byte strings: the round-trip
`AdHocToken::authenticate` relies on to recover the token id. -/
theorem b64Decode_b64Encode (bs : List Nat) (h : ∀ b ∈ bs, b < 256) :
    b64Decode (b64Encode bs) = some bs := by
  unfold b64Encode
  match bs with
  | [] => rfl
  | [b1] =>
    have hb1 : b1 < 256 := h b1 (List.mem_cons_self ..)
    have h1 : b1 / 4 < 64 := by omega
    have h2 : b1 % 4 * 16 < 64 := by omega
    simp only [b64EncodeWith, b64Decode, b64CharIdx_chr _ h1, b64CharIdx_chr _ h2]
    have htrail : b1 % 4 * 16 % 16 = 0 := by omega
    simp [htrail]
    omega
  | [b1, b2] =>
    have hb1 : b1 < 256 := h b1 (List.mem_cons_self ..)
    have hb2 : b2 < 256 := h b2 (by simp)
    have h1 : b1 / 4 < 64 := by omega
    have h2 : b1 % 4 * 16 + b2 / 16 < 64 := by omega
    have h3 : b2 % 16 * 4 < 64 := by omega
    have hne3 : ¬ b64chrWith b64StdAlphabet (b2 % 16 * 4) = '=' := b64chrWith_std_ne_pad _
    simp only [b64EncodeWith, b64Decode, b64CharIdx_chr _ h1, b64CharIdx_chr _ h2,
      b64CharIdx_chr _ h3, if_neg hne3]
    have htrail : b2 % 16 * 4 % 4 = 0 := by omega
    simp [htrail]
    constructor <;> omega
  | b1 :: b2 :: b3 :: rest =>
    have hb1 : b1 < 256 := h b1 (List.mem_cons_self ..)
    have hb2 : b2 < 256 := h b2 (by simp)
    have hb3 : b3 < 256 := h b3 (by simp)
    have hrest : ∀ b ∈ rest, b < 256 := by
      intro b hb
      exact h b (by simp [hb])
    have ih := b64Decode_b64Encode rest hrest
    unfold b64Encode at ih
    have h1 : b1 / 4 < 64 := by omega
    have h2 : b1 % 4 * 16 + b2 / 16 < 64 := by omega
    have h3 : b2 % 16 * 4 + b3 / 64 < 64 := by omega
    have h4 : b3 % 64 < 64 := by omega
    have hne3 : ¬ b64chrWith b64StdAlphabet (b2 % 16 * 4 + b3 / 64) = '=' :=
      b64chrWith_std_ne_pad _
    have hne4 : ¬ b64chrWith b64StdAlphabet (b3 % 64) = '=' := b64chrWith_std_ne_pad _
    simp only [b64EncodeWith, b64Decode, b64CharIdx_chr _ h1, b64CharIdx_chr _ h2,
      b64CharIdx_chr _ h3, b64CharIdx_chr _ h4, if_neg hne3, if_neg hne4, ih]
    have e1 : b1 / 4 * 4 + (b1 % 4 * 16 + b2 / 16) / 16 = b1 := by omega
    have e2 : (b1 % 4 * 16 + b2 / 16) % 16 * 16 + (b2 % 16 * 4 + b3 / 64) / 4 = b2 := by
      omega
    have e3 : (b2 % 16 * 4 + b3 / 64) % 4 * 64 + b3 % 64 = b3 := by omega
    rw [e1, e2, e3]

/- ### Splitting at the first dot

Models `str::split_once` as used on the external credential string. -/

/-- Splits a character list at the first occurrence of a separator,
returning the parts before and after it. -/
def splitOnce (sep : Char) : List Char → Option (List Char × List Char)
  | [] => none
  | c :: rest =>
    if c = sep then some ([], rest)
    else (splitOnce sep rest).map (fun p => (c :: p.1, p.2))

/-- Splitting at the first dot a string whose left half is dot-free
recovers both halves exactly. -/
theorem splitOnce_append (xs ys : List Char) (h : '.' ∉ xs) :
    splitOnce '.' (xs ++ '.' :: ys) = some (xs, ys) := by
  induction xs with
  | nil => simp [splitOnce]
  | cons c t ih =>
    have hc : ¬ c = '.' := fun hc => h (hc ▸ List.mem_cons_self ..)
    have ht : '.' ∉ t := fun hm => h (List.mem_cons_of_mem _ hm)
    simp only [List.cons_append, splitOnce, if_neg hc, List.append_eq, ih ht]
    rfl

/- ### Ad-hoc credential model (src/gq-server/src/model/auth.rs)

The database executor is modelled as explicit state: the `adhoc_tokens`
table is a list of rows, passed in and returned. Randomness (`Uuid::new_v4`)
is passed as explicit arguments. The SHA3-256 hash is an arbitrary function
argument; the code only relies on it being a function. -/

/-- A Uuid, modelled as its 16-byte representation (`Uuid::as_bytes`). -/
abbrev Uuid := List Nat

/-- Well-formed Uuid: 16 bytes, each below 256. -/
def Uuid.Wf (u : Uuid) : Prop := u.length = 16 ∧ ∀ b ∈ u, b < 256

instance (u : Uuid) : Decidable u.Wf :=
  inferInstanceAs (Decidable (u.length = 16 ∧ ∀ b ∈ u, b < 256))

/-- The errors of model/auth.rs `Error`, extended with the generic failures
the code lets escape through `eyre` / `sqlx` / library `?` propagation. -/
inductive AuthError
  | InvalidTokenFormat
  | NonExistingToken
  | MissingUserId
  | MissingTokenId
  | MissingClaims
  | InvalidSignatureStored
  | InvalidSessionClaim
  | TokenIdCollision
  | InvalidAuthorization
  | InvalidAuthorizationScheme
  | DecodeFailure
  | SignatureMismatch
  | InvalidSignature
  | InvalidUserId
  | InvalidKeyFormat
  | DbFailure
  deriving DecidableEq, Repr

/-- The `USER_TOKEN_APP_SECRET` constant of model/auth.rs. -/
def USER_TOKEN_APP_SECRET : List Char := "AsyncDeckbuilderAppTokenSecret".toList

/-- The stored part of an ad-hoc credential (struct `UserToken`). -/
structure UserToken where
  user_id : Uuid
  secret : Uuid
  signature : List Nat
  deriving DecidableEq, Repr

/-- `UserToken::generate`: draws `secret` and `token` (passed here as the
random inputs), hashes the composed data and returns the stored token
together with the `token` half of the credential string. -/
def UserToken.generate (sha3 : List Char → List Nat)
    (user_id secret token : Uuid) : UserToken × List Char :=
  let tokenChars := b64Encode token
  let secretB64 := b64Encode secret
  let data := USER_TOKEN_APP_SECRET ++ '.' :: bytesToHex user_id ++
    '.' :: secretB64 ++ '.' :: tokenChars
  (⟨user_id, secret, sha3 data⟩, tokenChars)

/-- `UserToken::verify`: recomputes the hash over the presented `token`
and compares it with the stored signature. -/
def UserToken.verify (sha3 : List Char → List Nat) (ut : UserToken)
    (token : List Char) : Except AuthError Uuid :=
  let secret := b64Encode ut.secret
  let data := USER_TOKEN_APP_SECRET ++ '.' :: bytesToHex ut.user_id ++
    '.' :: secret ++ '.' :: token
  if sha3 data = ut.signature then Except.ok ut.user_id
  else Except.error AuthError.SignatureMismatch

/-- A row of the `adhoc_tokens` table. -/
structure AdhocRow where
  id : Uuid
  user_id : Uuid
  secret : Uuid
  signature : List Nat
  deriving DecidableEq, Repr

/-- The `adhoc_tokens` table. -/
abbrev AdhocDb := List AdhocRow

/-- `AdHocToken::create`: generates the user token, draws a fresh
`token_id` (the last random input), inserts the row with
`on conflict(id) do nothing`, bails with `TokenIdCollision` when zero rows
were affected, and otherwise returns `base64(token_id) "." token`. -/
def AdHocToken.create (sha3 : List Char → List Nat) (db : AdhocDb)
    (user_id secret token token_id : Uuid) :
    AdhocDb × Except AuthError (List Char) :=
  let g := UserToken.generate sha3 user_id secret token
  if db.any (fun r => r.id == token_id) then
    (db, Except.error AuthError.TokenIdCollision)
  else
    let db1 := db ++ [⟨token_id, user_id, secret, g.1.signature⟩]
    (db1, Except.ok (b64Encode token_id ++ '.' :: g.2))

/-- `AdHocToken::authenticate`: splits the credential at the first dot,
base64-decodes the left half into exactly 16 bytes, fetches the row by
that id and verifies the stored `UserToken` against the right half. -/
def AdHocToken.authenticate (sha3 : List Char → List Nat) (db : AdhocDb)
    (s : List Char) : Except AuthError Uuid :=
  match splitOnce '.' s with
  | none => Except.error AuthError.InvalidTokenFormat
  | some (tidStr, tokenStr) =>
    match b64Decode tidStr with
    | none => Except.error AuthError.DecodeFailure
    | some bytes =>
      if bytes.length = 16 then
        match db.find? (fun r => r.id == bytes) with
        | none => Except.error AuthError.NonExistingToken
        | some row =>
          if row.signature.length = 32 then
            UserToken.verify sha3 ⟨row.user_id, row.secret, row.signature⟩ tokenStr
          else Except.error AuthError.InvalidSignatureStored
      else Except.error AuthError.InvalidTokenFormat

/-- Modelled from the spec: credential generation with the token-id retry
loop the specification prescribes (spec 4.3 step 3 and design note on the
retry cap): each conflicting insert fails silently and a new token id is
drawn, aborting with `TokenIdCollision` only once the retry budget is
exceeded. The candidate token ids are an explicit list of draws. -/
def AdHocToken.createSpecRetry (sha3 : List Char → List Nat) (db : AdhocDb)
    (user_id secret token : Uuid) :
    List Uuid → Nat → AdhocDb × Except AuthError (List Char)
  | _, 0 => (db, Except.error AuthError.TokenIdCollision)
  | [], _ => (db, Except.error AuthError.TokenIdCollision)
  | tid :: draws, budget + 1 =>
    if db.any (fun r => r.id == tid) then
      AdHocToken.createSpecRetry sha3 db user_id secret token draws budget
    else
      let g := UserToken.generate sha3 user_id secret token
      (db ++ [⟨tid, user_id, secret, g.1.signature⟩],
        Except.ok (b64Encode tid ++ '.' :: g.2))

/-- C1: Ad-hoc credential round-trip: issuing an ad-hoc credential for a
user (`AdHocToken::create` with `UserToken::generate`) and then verifying
the returned external token string (`AdHocToken::authenticate` with
`UserToken::verify`) against the stored row succeeds and returns the same
user id. -/
theorem adhoc_roundtrip (sha3 : List Char → List Nat) (db : AdhocDb)
    (user_id secret token token_id : Uuid)
    (hsha : ∀ s, (sha3 s).length = 32)
    (htid : Uuid.Wf token_id)
    (db1 : AdhocDb) (cred : List Char)
    (hok : AdHocToken.create sha3 db user_id secret token token_id =
      (db1, Except.ok cred)) :
    AdHocToken.authenticate sha3 db1 cred = Except.ok user_id := by
  have hcfalse : db.any (fun r => r.id == token_id) = false := by
    by_contra hc
    rw [Bool.not_eq_false] at hc
    simp only [AdHocToken.create, hc, if_true, Prod.mk.injEq] at hok
    exact absurd hok.2 (by simp)
  simp only [AdHocToken.create, hcfalse, Bool.false_eq_true, if_false,
    UserToken.generate, Prod.mk.injEq, Except.ok.injEq] at hok
  obtain ⟨hdb1, hcred⟩ := hok
  subst hcred
  subst hdb1
  unfold AdHocToken.authenticate
  rw [splitOnce_append _ _ (b64Encode_no_dot token_id)]
  simp only [b64Decode_b64Encode token_id htid.2, htid.1, if_true]
  rw [List.find?_append]
  have hnone : db.find? (fun r => r.id == token_id) = none := by
    rw [List.find?_eq_none]
    intro a ha
    exact (List.any_eq_false.mp hcfalse) a ha
  rw [hnone]
  simp only [Option.none_or, List.find?_cons, beq_self_eq_true, if_pos]
  simp only [hsha _, if_true, UserToken.verify, if_pos rfl]

/-- Witness for the ad-hoc round-trip at concrete inputs. -/
theorem adhoc_roundtrip_witness :
    AdHocToken.authenticate (fun _ => List.replicate 32 0)
      (AdHocToken.create (fun _ => List.replicate 32 0) [] (List.replicate 16 1)
        (List.replicate 16 2) (List.replicate 16 3) (List.replicate 16 4)).1
      (b64Encode (List.replicate 16 4) ++ '.' :: b64Encode (List.replicate 16 3)) =
      Except.ok (List.replicate 16 1) :=
  adhoc_roundtrip (fun _ => List.replicate 32 0) [] (List.replicate 16 1)
    (List.replicate 16 2) (List.replicate 16 3) (List.replicate 16 4)
    (fun _ => by simp) (by decide) _ _ rfl

/-- C6 counterexample: with a colliding first draw and a fresh second draw
available within the claimed retry budget, `AdHocToken::create` aborts with
`TokenIdCollision` immediately, whereas the retrying generation described
by the claim succeeds on the second draw. -/
theorem adhoc_no_retry_counterexample :
    (AdHocToken.create (fun _ => List.replicate 32 0)
        [⟨List.replicate 16 4, List.replicate 16 1, List.replicate 16 2,
          List.replicate 32 0⟩]
        (List.replicate 16 1) (List.replicate 16 2) (List.replicate 16 3)
        (List.replicate 16 4)).2 = Except.error AuthError.TokenIdCollision
    ∧ (AdHocToken.createSpecRetry (fun _ => List.replicate 32 0)
        [⟨List.replicate 16 4, List.replicate 16 1, List.replicate 16 2,
          List.replicate 32 0⟩]
        (List.replicate 16 1) (List.replicate 16 2) (List.replicate 16 3)
        [List.replicate 16 4, List.replicate 16 9] 3).2 =
      Except.ok (b64Encode (List.replicate 16 9) ++
        '.' :: b64Encode (List.replicate 16 3)) :=
  ⟨rfl, rfl⟩

/-- C6 (amended): when the freshly drawn token id conflicts with an
existing row, the insert fails silently (the table is unchanged and no
database error surfaces) and `AdHocToken::create` aborts immediately with
`TokenIdCollision`, without retrying. -/
theorem adhoc_create_conflict_aborts (sha3 : List Char → List Nat)
    (db : AdhocDb) (user_id secret token token_id : Uuid)
    (hc : db.any (fun r => r.id == token_id) = true) :
    AdHocToken.create sha3 db user_id secret token token_id =
      (db, Except.error AuthError.TokenIdCollision) := by
  simp only [AdHocToken.create, hc, if_true]

/-- Witness for the conflict-abort behaviour at concrete inputs. -/
theorem adhoc_create_conflict_aborts_witness :
    AdHocToken.create (fun _ => List.replicate 32 0)
      [⟨List.replicate 16 4, List.replicate 16 1, List.replicate 16 2,
        List.replicate 32 0⟩]
      (List.replicate 16 1) (List.replicate 16 2) (List.replicate 16 3)
      (List.replicate 16 4) =
      ([⟨List.replicate 16 4, List.replicate 16 1, List.replicate 16 2,
        List.replicate 32 0⟩], Except.error AuthError.TokenIdCollision) :=
  adhoc_create_conflict_aborts (fun _ => List.replicate 32 0) _ _ _ _ _ (by decide)

/-- C7 counterexample: at an all-255 token id and token, the credential the
code returns uses the standard base64 alphabet; it is not
`base64url(token_id) "." base64url(token)` since the standard encoding
emits the character `/`, which the URL-safe alphabet does not contain. -/
theorem adhoc_b64url_counterexample :
    (AdHocToken.create (fun _ => List.replicate 32 0) [] (List.replicate 16 1)
      (List.replicate 16 2) (List.replicate 16 255) (List.replicate 16 255)).2 =
      Except.ok (b64Encode (List.replicate 16 255) ++ '.' ::
        b64Encode (List.replicate 16 255))
    ∧ b64Encode (List.replicate 16 255) ≠ b64UrlEncode (List.replicate 16 255)
    ∧ '/' ∈ b64Encode (List.replicate 16 255)
    ∧ '/' ∉ b64UrlAlphabet := by
  refine ⟨rfl, ?_, ?_, ?_⟩ <;> decide

/-- C7 (amended): the returned credential is
`base64standard(token_id) "." base64standard(token)` — both halves use the
standard base64 alphabet with padding, not the URL-safe one — and
verification decodes the token-id half with the same standard decoding. -/
theorem adhoc_external_form (sha3 : List Char → List Nat) (db : AdhocDb)
    (user_id secret token token_id : Uuid) (htid : Uuid.Wf token_id)
    (db1 : AdhocDb) (cred : List Char)
    (hok : AdHocToken.create sha3 db user_id secret token token_id =
      (db1, Except.ok cred)) :
    cred = b64Encode token_id ++ '.' :: b64Encode token ∧
      b64Decode (b64Encode token_id) = some token_id := by
  refine ⟨?_, b64Decode_b64Encode _ htid.2⟩
  by_cases hc : db.any (fun r => r.id == token_id)
  · simp only [AdHocToken.create, hc, if_true, Prod.mk.injEq] at hok
    exact absurd hok.2 (by simp)
  · rw [Bool.not_eq_true] at hc
    simp only [AdHocToken.create, hc, Bool.false_eq_true, if_false,
      UserToken.generate, Prod.mk.injEq, Except.ok.injEq] at hok
    exact hok.2.symm

/-- Witness for the external credential form at concrete inputs. -/
theorem adhoc_external_form_witness :
    b64Encode (List.replicate 16 4) ++ '.' :: b64Encode (List.replicate 16 3) =
      b64Encode (List.replicate 16 4) ++ '.' :: b64Encode (List.replicate 16 3) ∧
      b64Decode (b64Encode (List.replicate 16 4)) = some (List.replicate 16 4) :=
  adhoc_external_form (fun _ => List.replicate 32 0) [] (List.replicate 16 1)
    (List.replicate 16 2) (List.replicate 16 3) (List.replicate 16 4)
    (by decide) _ _ rfl

/- ### Session model (src/gq-server/src/model/auth.rs, sessions)

The pasetors PASETO v4 public tokens are modelled structurally: a token
records its claims, its footer, the identity of the keypair whose secret
half signed it, and the implicit assertion bound into the signature. The
library contract — `public::verify` succeeds exactly when the token was
signed by the secret half of the presented public key, the implicit
assertion matches, and the default claim-validation rules pass — is the
verification function below. PASERK serialization of key ids and public
keys is modelled by tagged decimal renderings of the keypair identity.
The `session_tokens` table is explicit state, and randomness (keypair
generation) and the current time are explicit arguments. -/

/-- The `SESSION_APP_SECRET` implicit-assertion constant. -/
def SESSION_APP_SECRET : List Char := "AsyncDeckbuilderAppSessionTokenSecret".toList

/-- PASETO claims, modelled as the typed fields the code reads and writes;
claim values are their string renderings. -/
structure Claims where
  iss : Option (List Char)
  exp : Option (List Char)
  iat : Option (List Char)
  nbf : Option (List Char)
  deriving DecidableEq, Repr

/-- `Claims::new_expires_in(dur)` evaluated at time `now`: sets
issued-at and not-before to `now` and expiry to `now + dur`. -/
def Claims.newExpiresIn (now dur : Nat) : Claims :=
  ⟨none, some (natToChars (dur + now)), some (natToChars now), some (natToChars now)⟩

/-- `SessionData::append`: sets the issuer claim to the user id string. -/
def SessionData.append (user_id : Uuid) (c : Claims) : Claims :=
  ⟨some (bytesToHex user_id), c.exp, c.iat, c.nbf⟩

/-- Parsing a user id string (`str::parse::<UserId>`). -/
def parseUserIdChars (s : List Char) : Except AuthError Uuid :=
  match parseHexBytes s with
  | some u => Except.ok u
  | none => Except.error AuthError.InvalidUserId

/-- `SessionData::from_claims`: reads the `iss` claim and parses it back
into a user id. -/
def SessionData.fromClaims (c : Claims) : Except AuthError Uuid :=
  match c.iss with
  | none => Except.error AuthError.MissingUserId
  | some s => parseUserIdChars s

/-- Parsing a timestamp string (`str::parse::<DateTime>`). -/
def parseTimeChars (s : List Char) : Except AuthError Nat :=
  match parseNatChars s with
  | some t => Except.ok t
  | none => Except.error AuthError.DecodeFailure

/-- The free function `expires_at`: reads the `exp` claim and parses it as
a timestamp. -/
def expiresAtOf (c : Claims) : Except AuthError Nat :=
  match c.exp with
  | none => Except.error AuthError.InvalidSessionClaim
  | some s => parseTimeChars s

/-- A PASETO footer; the code only ever stores and reads the `kid` claim. -/
structure Footer where
  kid : Option (List Char)
  deriving DecidableEq, Repr

/-- A PASETO v4 public token, modelled structurally (see the section
comment). -/
structure PasetoToken where
  claims : Claims
  footer : Footer
  keyPair : Nat
  implicit : List Char
  deriving DecidableEq, Repr

/-- PASERK id of a keypair's public key (`paserk::Id`), serialized. -/
def paserkKid (k : Nat) : List Char := 'k' :: natToChars k

/-- PASERK serialization of a public key (`FormatAsPaserk`). -/
def paserkPk (k : Nat) : List Char := 'p' :: natToChars k

/-- `AsymmetricPublicKey::try_from` on a PASERK public-key string. -/
def parsePk : List Char → Option Nat
  | 'p' :: rest => parseNatChars rest
  | _ => none

/-- Time comparison for the parsed `exp`, `iat` and `nbf` claims. -/
def validTriple (now : Nat) : Option Nat → Option Nat → Option Nat → Bool
  | some te, some ti, some tn =>
    decide (now ≤ te) && decide (ti ≤ now) && decide (tn ≤ now)
  | _, _, _ => false

/-- Default `ClaimsValidationRules` evaluated at time `now`: the token is
not yet expired, already issued, and already valid. -/
def claimsValidAt (now : Nat) (c : Claims) : Bool :=
  match c.exp, c.iat, c.nbf with
  | some e, some i, some n =>
    validTriple now (parseNatChars e) (parseNatChars i) (parseNatChars n)
  | _, _, _ => false

/-- `public::verify` over the structural token model. -/
def publicVerify (pk : Nat) (tok : PasetoToken) (now : Nat)
    (implicit : List Char) : Option Claims :=
  if tok.keyPair = pk ∧ tok.implicit = implicit ∧ claimsValidAt now tok.claims
  then some tok.claims
  else none

/-- A row of the `session_tokens` table. -/
structure SessionRow where
  id : List Char
  public_key : List Char
  expires_at : Nat
  deriving DecidableEq, Repr

/-- The `session_tokens` table. -/
abbrev SessionDb := List SessionRow

/-- The `Session` struct. -/
structure Session where
  user_id : Uuid
  token : PasetoToken
  expires_at : Nat
  deriving DecidableEq, Repr

/-- `Session::new`: generates a keypair (the random input `k`), derives
the PASERK key id, builds the claims (expiry 24 hours from `now`, issuer
the user id), signs the token with the footer `kid` and the implicit
assertion, and returns the session together with the serialized key id
and public key for storage. -/
def Session.new (user_id : Uuid) (now k : Nat) :
    Except AuthError (Session × List Char × List Char) :=
  match expiresAtOf (SessionData.append user_id (Claims.newExpiresIn now 86400)) with
  | Except.error e => Except.error e
  | Except.ok expAt =>
    Except.ok
      (⟨user_id,
        ⟨SessionData.append user_id (Claims.newExpiresIn now 86400),
          ⟨some (paserkKid k)⟩, k, SESSION_APP_SECRET⟩, expAt⟩,
        paserkKid k, paserkPk k)

/-- The INSERT step of `Session::create`: a plain INSERT, failing with a
database error when the key id already exists. -/
def Session.insertRow (db : SessionDb) (session : Session)
    (kid pk : List Char) : SessionDb × Except AuthError Session :=
  if db.any (fun r => r.id == kid) then (db, Except.error AuthError.DbFailure)
  else (db ++ [⟨kid, pk, session.expires_at⟩], Except.ok session)

/-- `Session::create`: builds a new session and inserts the
`(kid, public_key, expires_at)` row. -/
def Session.create (db : SessionDb) (user_id : Uuid) (now k : Nat) :
    SessionDb × Except AuthError Session :=
  match Session.new user_id now k with
  | Except.error e => (db, Except.error e)
  | Except.ok (session, kid, pk) => Session.insertRow db session kid pk

/-- Tail of `Session::authenticate` after the `iss` claim was read:
read and parse the `exp` claim. -/
def Session.finishAuth (tok : PasetoToken) (claims : Claims) (uid : Uuid) :
    Except AuthError Session :=
  match expiresAtOf claims with
  | Except.error e => Except.error e
  | Except.ok expAt => Except.ok ⟨uid, tok, expAt⟩

/-- Tail of `Session::authenticate` after signature verification:
rebuild the session data from the verified claims. -/
def Session.authWithClaims (tok : PasetoToken) (claims : Claims) :
    Except AuthError Session :=
  match SessionData.fromClaims claims with
  | Except.error e => Except.error e
  | Except.ok uid => Session.finishAuth tok claims uid

/-- Tail of `Session::authenticate` after the stored public key was
parsed: verify the token with it. -/
def Session.authWithPk (tok : PasetoToken) (now pk : Nat) :
    Except AuthError Session :=
  match publicVerify pk tok now SESSION_APP_SECRET with
  | none => Except.error AuthError.InvalidSignature
  | some claims => Session.authWithClaims tok claims

/-- Tail of `Session::authenticate` after the key row was fetched:
parse the stored public key. -/
def Session.authWithRow (tok : PasetoToken) (now : Nat) (row : SessionRow) :
    Except AuthError Session :=
  match parsePk row.public_key with
  | none => Except.error AuthError.InvalidKeyFormat
  | some pk => Session.authWithPk tok now pk

/-- Tail of `Session::authenticate` after the footer `kid` was read:
look the key row up by id. -/
def Session.authWithKid (db : SessionDb) (tok : PasetoToken) (now : Nat)
    (key_id : List Char) : Except AuthError Session :=
  match db.find? (fun r => r.id == key_id) with
  | none => Except.error AuthError.NonExistingToken
  | some row => Session.authWithRow tok now row

/-- `Session::authenticate`: reads `kid` from the untrusted footer, looks
the public key up by it, verifies the token, and rebuilds the session from
the `iss` and `exp` claims. -/
def Session.authenticate (db : SessionDb) (tok : PasetoToken) (now : Nat) :
    Except AuthError Session :=
  match tok.footer.kid with
  | none => Except.error AuthError.MissingTokenId
  | some key_id => Session.authWithKid db tok now key_id

/-- The UPDATE step of `Session::refresh`: UPDATE the row whose id is the
old kid to the new `(kid, public_key, expires_at)`. The number of affected
rows is not inspected, so an absent old row is not detected. Renaming a
matched row onto a distinct existing key id would violate the primary key
and fail with a database error. -/
def Session.updateRow (db : SessionDb) (prev_kid : List Char)
    (session : Session) (kid pk : List Char) :
    SessionDb × Except AuthError Session :=
  if db.any (fun r => r.id == prev_kid) ∧
      db.any (fun r => r.id == kid && !(r.id == prev_kid)) then
    (db, Except.error AuthError.DbFailure)
  else
    (db.map (fun r =>
        if r.id == prev_kid then ⟨kid, pk, session.expires_at⟩ else r),
      Except.ok session)

/-- Tail of `Session::refresh` after the old footer `kid` was read. -/
def Session.refreshWithPrev (db : SessionDb) (s : Session) (now k : Nat)
    (prev_kid : List Char) : SessionDb × Except AuthError Session :=
  match Session.new s.user_id now k with
  | Except.error e => (db, Except.error e)
  | Except.ok (session, kid, pk) => Session.updateRow db prev_kid session kid pk

/-- `Session::refresh`: reads the old key id from the token footer, builds
a new session, and updates the stored row in place. -/
def Session.refresh (db : SessionDb) (s : Session) (now k : Nat) :
    SessionDb × Except AuthError Session :=
  match s.token.footer.kid with
  | none => (db, Except.error AuthError.MissingTokenId)
  | some prev_kid => Session.refreshWithPrev db s now k prev_kid

/-- The header-emission step of the middleware's refresh arm: a successful
refresh surfaces the new token, a failed one fails the request (rolling
the transaction back to the pre-request table). -/
def middlewareEmit (db : SessionDb)
    (res : SessionDb × Except AuthError Session) :
    SessionDb × Except AuthError (Session × Option PasetoToken) :=
  match res with
  | (db1, Except.ok s2) => (db1, Except.ok (s2, some s2.token))
  | (_, Except.error e) => (db, Except.error e)

/-- The refresh decision of the middleware: refresh when the session
expires in less than 10 minutes, otherwise pass it through with no new
header. -/
def middlewareRefresh (db : SessionDb) (session : Session) (now k : Nat) :
    SessionDb × Except AuthError (Session × Option PasetoToken) :=
  if session.expires_at < now + 600 then
    middlewareEmit db (Session.refresh db session now k)
  else (db, Except.ok (session, none))

/-- The `Session` branch of the auth middleware (service/session.rs):
authenticate the bearer session token, then apply the refresh rule inside
the same transaction. On failure the transaction rolls back, leaving the
table unchanged. -/
def middlewareSession (db : SessionDb) (tok : PasetoToken) (now k : Nat) :
    SessionDb × Except AuthError (Session × Option PasetoToken) :=
  match Session.authenticate db tok now with
  | Except.error e => (db, Except.error e)
  | Except.ok session => middlewareRefresh db session now k

/-- The canonical session value `Session::new` produces for a user, a
creation time and a keypair. -/
def sessionOf (user_id : Uuid) (now k : Nat) : Session :=
  ⟨user_id,
    ⟨⟨some (bytesToHex user_id), some (natToChars (86400 + now)),
      some (natToChars now), some (natToChars now)⟩,
      ⟨some (paserkKid k)⟩, k, SESSION_APP_SECRET⟩,
    86400 + now⟩

theorem parseTimeChars_natToChars (t : Nat) :
    parseTimeChars (natToChars t) = Except.ok t := by
  unfold parseTimeChars
  rw [parseNatChars_natToChars]

theorem parseUserIdChars_bytesToHex (u : Uuid) (h : ∀ b ∈ u, b < 256) :
    parseUserIdChars (bytesToHex u) = Except.ok u := by
  unfold parseUserIdChars
  rw [parseHexBytes_bytesToHex u h]

theorem Session.new_eq (user_id : Uuid) (now k : Nat) :
    Session.new user_id now k =
      Except.ok (sessionOf user_id now k, paserkKid k, paserkPk k) := by
  have hexp : expiresAtOf (SessionData.append user_id (Claims.newExpiresIn now 86400)) =
      Except.ok (86400 + now) := by
    show parseTimeChars (natToChars (86400 + now)) = Except.ok (86400 + now)
    exact parseTimeChars_natToChars _
  unfold Session.new
  rw [hexp]
  rfl

theorem parsePk_paserkPk (k : Nat) : parsePk (paserkPk k) = some k := by
  simp [parsePk, paserkPk, parseNatChars_natToChars]

theorem find?_append_fresh {α} (p : α → Bool) (l : List α) (a : α)
    (h : l.any p = false) (ha : p a = true) :
    (l ++ [a]).find? p = some a := by
  rw [List.find?_append]
  have hnone : l.find? p = none :=
    List.find?_eq_none.mpr (fun x hx => by
      have := List.any_eq_false.mp h x hx
      simpa using this)
  rw [hnone]
  simp [List.find?_cons, ha]

theorem claimsValidAt_sessionOf (user_id : Uuid) (now k now2 : Nat)
    (hbefore : now ≤ now2) (hvalid : now2 ≤ 86400 + now) :
    claimsValidAt now2 (sessionOf user_id now k).token.claims = true := by
  simp only [sessionOf, claimsValidAt]
  rw [parseNatChars_natToChars, parseNatChars_natToChars]
  simp [validTriple, hbefore, hvalid]

theorem Session.authenticate_kid (db : SessionDb) (tok : PasetoToken)
    (now : Nat) (kid0 : List Char) (h : tok.footer.kid = some kid0) :
    Session.authenticate db tok now = Session.authWithKid db tok now kid0 := by
  unfold Session.authenticate
  rw [h]

theorem Session.authWithKid_found (db : SessionDb) (tok : PasetoToken)
    (now : Nat) (key_id : List Char) (row : SessionRow)
    (h : db.find? (fun r => r.id == key_id) = some row) :
    Session.authWithKid db tok now key_id = Session.authWithRow tok now row := by
  unfold Session.authWithKid
  rw [h]

theorem Session.authWithKid_missing (db : SessionDb) (tok : PasetoToken)
    (now : Nat) (key_id : List Char)
    (h : db.find? (fun r => r.id == key_id) = none) :
    Session.authWithKid db tok now key_id =
      Except.error AuthError.NonExistingToken := by
  unfold Session.authWithKid
  rw [h]

theorem Session.authWithRow_pk (tok : PasetoToken) (now : Nat)
    (row : SessionRow) (pk : Nat) (h : parsePk row.public_key = some pk) :
    Session.authWithRow tok now row = Session.authWithPk tok now pk := by
  unfold Session.authWithRow
  rw [h]

theorem Session.authWithPk_verified (tok : PasetoToken) (now pk : Nat)
    (claims : Claims)
    (h : publicVerify pk tok now SESSION_APP_SECRET = some claims) :
    Session.authWithPk tok now pk = Session.authWithClaims tok claims := by
  unfold Session.authWithPk
  rw [h]

theorem Session.authWithClaims_iss (tok : PasetoToken) (claims : Claims)
    (uid : Uuid) (h : SessionData.fromClaims claims = Except.ok uid) :
    Session.authWithClaims tok claims = Session.finishAuth tok claims uid := by
  unfold Session.authWithClaims
  rw [h]

theorem Session.finishAuth_exp (tok : PasetoToken) (claims : Claims)
    (uid : Uuid) (t : Nat) (h : expiresAtOf claims = Except.ok t) :
    Session.finishAuth tok claims uid = Except.ok ⟨uid, tok, t⟩ := by
  unfold Session.finishAuth
  rw [h]

theorem Session.create_eq (db : SessionDb) (user_id : Uuid) (now k : Nat) :
    Session.create db user_id now k =
      Session.insertRow db (sessionOf user_id now k) (paserkKid k) (paserkPk k) := by
  unfold Session.create
  rw [Session.new_eq]

theorem Session.refresh_prev (db : SessionDb) (s : Session) (now k : Nat)
    (kid0 : List Char) (h : s.token.footer.kid = some kid0) :
    Session.refresh db s now k = Session.refreshWithPrev db s now k kid0 := by
  unfold Session.refresh
  rw [h]

theorem Session.refreshWithPrev_eq (db : SessionDb) (s : Session)
    (now k : Nat) (kid0 : List Char) :
    Session.refreshWithPrev db s now k kid0 =
      Session.updateRow db kid0 (sessionOf s.user_id now k)
        (paserkKid k) (paserkPk k) := by
  unfold Session.refreshWithPrev
  rw [Session.new_eq]

theorem middlewareSession_auth (db : SessionDb) (tok : PasetoToken)
    (now k : Nat) (session : Session)
    (h : Session.authenticate db tok now = Except.ok session) :
    middlewareSession db tok now k = middlewareRefresh db session now k := by
  unfold middlewareSession
  rw [h]

/-- Authenticating the session `Session::new` built succeeds whenever its
key row is the one found in the table and the time is within validity. -/
theorem authenticate_sessionOf (db : SessionDb) (user_id : Uuid)
    (now k now2 e : Nat)
    (huid : ∀ b ∈ user_id, b < 256)
    (hfind : db.find? (fun r => r.id == paserkKid k) =
      some ⟨paserkKid k, paserkPk k, e⟩)
    (hbefore : now ≤ now2) (hvalid : now2 ≤ 86400 + now) :
    Session.authenticate db (sessionOf user_id now k).token now2 =
      Except.ok (sessionOf user_id now k) := by
  have hcv := claimsValidAt_sessionOf user_id now k now2 hbefore hvalid
  have hpv : publicVerify k (sessionOf user_id now k).token now2 SESSION_APP_SECRET =
      some (sessionOf user_id now k).token.claims := by
    unfold publicVerify
    rw [if_pos ⟨rfl, rfl, hcv⟩]
  have hiss : SessionData.fromClaims (sessionOf user_id now k).token.claims =
      Except.ok user_id := by
    simp only [sessionOf, SessionData.fromClaims]
    exact parseUserIdChars_bytesToHex user_id huid
  have hexp : expiresAtOf (sessionOf user_id now k).token.claims =
      Except.ok (86400 + now) := by
    simp only [sessionOf, expiresAtOf]
    exact parseTimeChars_natToChars _
  rw [Session.authenticate_kid db _ now2 (paserkKid k) rfl,
    Session.authWithKid_found db _ now2 _ _ hfind,
    Session.authWithRow_pk _ now2 _ k (parsePk_paserkPk k),
    Session.authWithPk_verified _ now2 k _ hpv,
    Session.authWithClaims_iss _ _ user_id hiss,
    Session.finishAuth_exp _ _ user_id (86400 + now) hexp]
  rfl

theorem Session.authWithRow_pk_none (tok : PasetoToken) (now : Nat)
    (row : SessionRow) (h : parsePk row.public_key = none) :
    Session.authWithRow tok now row =
      Except.error AuthError.InvalidKeyFormat := by
  unfold Session.authWithRow
  rw [h]

theorem Session.authWithPk_fail (tok : PasetoToken) (now pk : Nat)
    (h : publicVerify pk tok now SESSION_APP_SECRET = none) :
    Session.authWithPk tok now pk =
      Except.error AuthError.InvalidSignature := by
  unfold Session.authWithPk
  rw [h]

theorem Session.authWithClaims_err (tok : PasetoToken) (claims : Claims)
    (e : AuthError) (h : SessionData.fromClaims claims = Except.error e) :
    Session.authWithClaims tok claims = Except.error e := by
  unfold Session.authWithClaims
  rw [h]

theorem Session.finishAuth_err (tok : PasetoToken) (claims : Claims)
    (uid : Uuid) (e : AuthError) (h : expiresAtOf claims = Except.error e) :
    Session.finishAuth tok claims uid = Except.error e := by
  unfold Session.finishAuth
  rw [h]

/-- A successful authentication carries the presented token in the
returned session, and the token's footer holds a key id. -/
theorem authenticate_ok_inv (db : SessionDb) (tok : PasetoToken) (now : Nat)
    (session : Session)
    (h : Session.authenticate db tok now = Except.ok session) :
    session.token = tok ∧ ∃ kid0, tok.footer.kid = some kid0 := by
  cases hk : tok.footer.kid with
  | none =>
    unfold Session.authenticate at h
    rw [hk] at h
    exact absurd h (by simp)
  | some kid0 =>
    rw [Session.authenticate_kid db tok now kid0 hk] at h
    refine ⟨?_, kid0, rfl⟩
    cases hf : db.find? (fun r => r.id == kid0) with
    | none =>
      rw [Session.authWithKid_missing db tok now kid0 hf] at h
      exact absurd h (by simp)
    | some row =>
      rw [Session.authWithKid_found db tok now kid0 row hf] at h
      cases hp : parsePk row.public_key with
      | none =>
        rw [Session.authWithRow_pk_none tok now row hp] at h
        exact absurd h (by simp)
      | some pk =>
        rw [Session.authWithRow_pk tok now row pk hp] at h
        cases hv : publicVerify pk tok now SESSION_APP_SECRET with
        | none =>
          rw [Session.authWithPk_fail tok now pk hv] at h
          exact absurd h (by simp)
        | some claims =>
          rw [Session.authWithPk_verified tok now pk claims hv] at h
          cases hi : SessionData.fromClaims claims with
          | error e =>
            rw [Session.authWithClaims_err tok claims e hi] at h
            exact absurd h (by simp)
          | ok uid =>
            rw [Session.authWithClaims_iss tok claims uid hi] at h
            cases he : expiresAtOf claims with
            | error e =>
              rw [Session.finishAuth_err tok claims uid e he] at h
              exact absurd h (by simp)
            | ok t =>
              rw [Session.finishAuth_exp tok claims uid t he] at h
              injection h with h2
              rw [← h2]

/-- After the refresh UPDATE renamed the old key id away, a lookup by the
old key id finds nothing. -/
theorem find?_update_miss (db : SessionDb) (kid0 : List Char)
    (newRow : SessionRow) (hne : newRow.id ≠ kid0) :
    (db.map (fun r => if r.id == kid0 then newRow else r)).find?
      (fun r => r.id == kid0) = none := by
  rw [List.find?_eq_none]
  intro x hx
  rw [List.mem_map] at hx
  obtain ⟨r, hr, hfx⟩ := hx
  cases hb : (r.id == kid0) with
  | true =>
    rw [hb] at hfx
    simp only [if_true] at hfx
    subst hfx
    simp [hne]
  | false =>
    rw [hb] at hfx
    simp only [Bool.false_eq_true, if_false] at hfx
    subst hfx
    simp [hb]

/-- After the refresh UPDATE, a lookup by the new key id finds exactly the
new row, provided the old row was present and the new key id was fresh. -/
theorem find?_update_hit (db : SessionDb) (kid0 : List Char)
    (newRow : SessionRow)
    (hold : db.any (fun r => r.id == kid0) = true)
    (hfresh : db.any (fun r => r.id == newRow.id) = false) :
    (db.map (fun r => if r.id == kid0 then newRow else r)).find?
      (fun r => r.id == newRow.id) = some newRow := by
  induction db with
  | nil => simp at hold
  | cons r t ih =>
    rw [List.any_cons, Bool.or_eq_true] at hold
    rw [List.any_cons, Bool.or_eq_false_iff] at hfresh
    obtain ⟨hf1, hf2⟩ := hfresh
    cases hb : (r.id == kid0) with
    | true =>
      simp only [List.map_cons, hb, if_true, List.find?_cons, beq_self_eq_true]
    | false =>
      have hold2 : t.any (fun x => x.id == kid0) = true := by
        rcases hold with h | h
        · rw [hb] at h
          exact absurd h (by simp)
        · exact h
      simp only [List.map_cons, hb, Bool.false_eq_true, if_false,
        List.find?_cons, hf1]
      exact ih hold2 hf2

/-- Evaluation of `Session::refresh` when the new key id collides with no
existing row: the UPDATE step succeeds, and the new session is returned. -/
theorem refresh_updates (db : SessionDb) (s : Session) (now k : Nat)
    (kid0 : List Char)
    (hkid : s.token.footer.kid = some kid0)
    (hfresh : db.any (fun r => r.id == paserkKid k) = false) :
    Session.refresh db s now k =
      (db.map (fun r => if r.id == kid0 then
          ⟨paserkKid k, paserkPk k, (sessionOf s.user_id now k).expires_at⟩
        else r),
        Except.ok (sessionOf s.user_id now k)) := by
  rw [Session.refresh_prev db s now k kid0 hkid, Session.refreshWithPrev_eq]
  unfold Session.updateRow
  have hcond : ¬ (db.any (fun r => r.id == kid0) = true ∧
      db.any (fun r => r.id == paserkKid k && !(r.id == kid0)) = true) := by
    rintro ⟨_, h2⟩
    rw [List.any_eq_true] at h2
    obtain ⟨r, hr, hp⟩ := h2
    rw [Bool.and_eq_true] at hp
    exact (List.any_eq_false.mp hfresh r hr) hp.1
  rw [if_neg hcond]

/-- C2: Session round-trip: if `Session::create` succeeds for a user then
`Session::authenticate` on the returned token (with the stored key row
present) succeeds within the validity window, returning the very same
session: the same user id, recovered from the `iss` claim, and the same
expiry, recovered by parsing the `exp` claim string. -/
theorem session_roundtrip (db : SessionDb) (user_id : Uuid) (now k now2 : Nat)
    (huid : ∀ b ∈ user_id, b < 256)
    (db1 : SessionDb) (s : Session)
    (hok : Session.create db user_id now k = (db1, Except.ok s))
    (hbefore : now ≤ now2) (hvalid : now2 ≤ 86400 + now) :
    Session.authenticate db1 s.token now2 = Except.ok s ∧
      s.user_id = user_id ∧ s.expires_at = 86400 + now := by
  rw [Session.create_eq] at hok
  cases hc : db.any (fun r => r.id == paserkKid k) with
  | true =>
    unfold Session.insertRow at hok
    rw [hc] at hok
    simp only [if_true, Prod.mk.injEq] at hok
    exact absurd hok.2 (by simp)
  | false =>
    unfold Session.insertRow at hok
    rw [hc] at hok
    simp only [Bool.false_eq_true, if_false, Prod.mk.injEq, Except.ok.injEq] at hok
    obtain ⟨hdb1, hs⟩ := hok
    subst hdb1
    subst hs
    refine ⟨?_, rfl, rfl⟩
    exact authenticate_sessionOf _ user_id now k now2 _ huid
      (find?_append_fresh _ db _ hc (by simp)) hbefore hvalid

/-- Witness for the session round-trip at concrete inputs. -/
theorem session_roundtrip_witness :
    Session.authenticate
        [⟨paserkKid 5, paserkPk 5, (sessionOf (List.replicate 16 1) 0 5).expires_at⟩]
        (sessionOf (List.replicate 16 1) 0 5).token 0 =
      Except.ok (sessionOf (List.replicate 16 1) 0 5) ∧
      (sessionOf (List.replicate 16 1) 0 5).user_id = List.replicate 16 1 ∧
      (sessionOf (List.replicate 16 1) 0 5).expires_at = 86400 + 0 :=
  session_roundtrip [] (List.replicate 16 1) 0 5 0 (by decide)
    ([] ++ [⟨paserkKid 5, paserkPk 5, (sessionOf (List.replicate 16 1) 0 5).expires_at⟩])
    (sessionOf (List.replicate 16 1) 0 5)
    (by rw [Session.create_eq]; rfl) (by decide) (by decide)

/-- C3: Post-refresh invalidation: for a session whose key row is stored,
after `Session::refresh` succeeds, authenticating the old token fails with
`NonExistingToken` (its key id no longer exists in `session_tokens`) and
authenticating the returned new token succeeds. -/
theorem session_refresh_post (db : SessionDb) (s : Session) (now k now2 : Nat)
    (kid0 : List Char)
    (hkid : s.token.footer.kid = some kid0)
    (hold : db.any (fun r => r.id == kid0) = true)
    (hfresh : db.any (fun r => r.id == paserkKid k) = false)
    (hne : paserkKid k ≠ kid0)
    (huid : ∀ b ∈ s.user_id, b < 256)
    (hbefore : now ≤ now2) (hvalid : now2 ≤ 86400 + now)
    (db1 : SessionDb) (s2 : Session)
    (hok : Session.refresh db s now k = (db1, Except.ok s2)) :
    Session.authenticate db1 s.token now2 =
        Except.error AuthError.NonExistingToken ∧
      Session.authenticate db1 s2.token now2 = Except.ok s2 := by
  rw [refresh_updates db s now k kid0 hkid hfresh] at hok
  injection hok with hdb1 hs2
  injection hs2 with hs2
  subst hdb1
  subst hs2
  constructor
  · rw [Session.authenticate_kid _ _ _ kid0 hkid]
    exact Session.authWithKid_missing _ _ _ _
      (find?_update_miss db kid0 _ hne)
  · have hfind := find?_update_hit db kid0
      ⟨paserkKid k, paserkPk k, (sessionOf s.user_id now k).expires_at⟩
      hold hfresh
    exact authenticate_sessionOf _ s.user_id now k now2 _ huid hfind hbefore hvalid

/-- Witness for post-refresh invalidation at concrete inputs. -/
theorem session_refresh_post_witness :
    Session.authenticate [⟨paserkKid 0, paserkPk 0, 86400 + 0⟩]
        (⟨List.replicate 16 1,
          ⟨⟨none, none, none, none⟩, ⟨some ['x']⟩, 9, SESSION_APP_SECRET⟩,
          3⟩ : Session).token 0 =
      Except.error AuthError.NonExistingToken ∧
    Session.authenticate [⟨paserkKid 0, paserkPk 0, 86400 + 0⟩]
        (sessionOf (List.replicate 16 1) 0 0).token 0 =
      Except.ok (sessionOf (List.replicate 16 1) 0 0) :=
  session_refresh_post [⟨['x'], ['p'], 3⟩]
    ⟨List.replicate 16 1,
      ⟨⟨none, none, none, none⟩, ⟨some ['x']⟩, 9, SESSION_APP_SECRET⟩, 3⟩
    0 0 0 ['x'] rfl (by decide) (by decide) (by decide) (by decide)
    (by decide) (by decide)
    [⟨paserkKid 0, paserkPk 0, 86400 + 0⟩]
    (sessionOf (List.replicate 16 1) 0 0)
    (by
      rw [refresh_updates _ _ 0 0 ['x'] rfl (by decide)]
      rfl)

/-- C5 counterexample: refreshing a session whose key row is absent from
`session_tokens` does not fail with `NonExistingToken`: it succeeds,
returning a fresh session, because the code never inspects the number of
rows the UPDATE affected. -/
theorem session_refresh_gone_counterexample :
    Session.refresh []
        (⟨List.replicate 16 1,
          ⟨⟨none, none, none, none⟩, ⟨some ['x']⟩, 9, SESSION_APP_SECRET⟩,
          3⟩ : Session) 0 0 =
      ([], Except.ok (sessionOf (List.replicate 16 1) 0 0)) ∧
    (Except.ok (sessionOf (List.replicate 16 1) 0 0) :
        Except AuthError Session) ≠
      Except.error AuthError.NonExistingToken := by
  constructor
  · rw [refresh_updates [] _ 0 0 ['x'] rfl (by decide)]
    rfl
  · intro h
    exact Except.noConfusion h

/-- C5 (amended): refreshing a session whose key row is absent from
`session_tokens` succeeds silently, returning a new session, and leaves
the table unchanged (the UPDATE matches no row); consequently the new key
was never stored and the returned token itself fails to authenticate with
`NonExistingToken`. -/
theorem session_refresh_gone (db : SessionDb) (s : Session) (now k now2 : Nat)
    (kid0 : List Char) (hkid : s.token.footer.kid = some kid0)
    (habsent : db.any (fun r => r.id == kid0) = false)
    (hfresh : db.any (fun r => r.id == paserkKid k) = false) :
    Session.refresh db s now k = (db, Except.ok (sessionOf s.user_id now k)) ∧
      Session.authenticate db (sessionOf s.user_id now k).token now2 =
        Except.error AuthError.NonExistingToken := by
  constructor
  · rw [refresh_updates db s now k kid0 hkid hfresh]
    have hmap : ∀ l : SessionDb, (l.any fun r => r.id == kid0) = false →
        l.map (fun r => if r.id == kid0 then
          (⟨paserkKid k, paserkPk k, (sessionOf s.user_id now k).expires_at⟩ :
            SessionRow) else r) = l := by
      intro l hl
      induction l with
      | nil => rfl
      | cons r t ih =>
        rw [List.any_cons, Bool.or_eq_false_iff] at hl
        rw [List.map_cons, ih hl.2, hl.1]
        simp
    rw [hmap db habsent]
  · rw [Session.authenticate_kid _ _ _ (paserkKid k) rfl]
    refine Session.authWithKid_missing _ _ _ _ ?_
    rw [List.find?_eq_none]
    intro x hx
    have := List.any_eq_false.mp hfresh x hx
    simpa using this

/-- Witness for the silent refresh of a gone session at concrete inputs. -/
theorem session_refresh_gone_witness :
    Session.refresh []
        (⟨List.replicate 16 2,
          ⟨⟨none, none, none, none⟩, ⟨some ['y']⟩, 9, SESSION_APP_SECRET⟩,
          3⟩ : Session) 0 0 =
      ([], Except.ok (sessionOf (List.replicate 16 2) 0 0)) ∧
      Session.authenticate [] (sessionOf (List.replicate 16 2) 0 0).token 0 =
        Except.error AuthError.NonExistingToken :=
  session_refresh_gone []
    ⟨List.replicate 16 2,
      ⟨⟨none, none, none, none⟩, ⟨some ['y']⟩, 9, SESSION_APP_SECRET⟩, 3⟩
    0 0 0 ['y'] rfl (by decide) (by decide)

theorem natToChars_one : natToChars 1 = ['1'] := by
  unfold natToChars
  rw [if_neg (by norm_num), Nat.digits_def' (by norm_num) (by norm_num)]
  norm_num
  decide

/-- C8: Middleware refresh rule, `Session` branch: for a request whose
session token verifies, the middleware refreshes the session and emits the
refreshed token in the `X-Session-Token` response header exactly when the
session's expiry is less than 10 minutes away; otherwise the existing
session passes through and no header is emitted. -/
theorem middleware_refresh_iff (db : SessionDb) (tok : PasetoToken)
    (now k : Nat) (session : Session)
    (hauth : Session.authenticate db tok now = Except.ok session)
    (hfresh : db.any (fun r => r.id == paserkKid k) = false) :
    (session.expires_at < now + 600 →
      ∃ db1 s2, Session.refresh db session now k = (db1, Except.ok s2) ∧
        middlewareSession db tok now k = (db1, Except.ok (s2, some s2.token)))
    ∧ (now + 600 ≤ session.expires_at →
        middlewareSession db tok now k = (db, Except.ok (session, none))) := by
  obtain ⟨htok, kid0, hkid⟩ := authenticate_ok_inv db tok now session hauth
  have hskid : session.token.footer.kid = some kid0 := by
    rw [htok]
    exact hkid
  constructor
  · intro hlt
    refine ⟨_, sessionOf session.user_id now k,
      refresh_updates db session now k kid0 hskid hfresh, ?_⟩
    rw [middlewareSession_auth db tok now k session hauth]
    unfold middlewareRefresh
    rw [if_pos hlt, refresh_updates db session now k kid0 hskid hfresh]
    rfl
  · intro hge
    rw [middlewareSession_auth db tok now k session hauth]
    unfold middlewareRefresh
    rw [if_neg (not_lt.mpr hge)]

/-- Witness for the middleware refresh rule at concrete inputs. -/
theorem middleware_refresh_iff_witness :
    ((sessionOf (List.replicate 16 1) 0 0).expires_at < 0 + 600 →
      ∃ db1 s2, Session.refresh [⟨paserkKid 0, paserkPk 0, 86400 + 0⟩]
          (sessionOf (List.replicate 16 1) 0 0) 0 1 = (db1, Except.ok s2) ∧
        middlewareSession [⟨paserkKid 0, paserkPk 0, 86400 + 0⟩]
            (sessionOf (List.replicate 16 1) 0 0).token 0 1 =
          (db1, Except.ok (s2, some s2.token)))
    ∧ (0 + 600 ≤ (sessionOf (List.replicate 16 1) 0 0).expires_at →
        middlewareSession [⟨paserkKid 0, paserkPk 0, 86400 + 0⟩]
            (sessionOf (List.replicate 16 1) 0 0).token 0 1 =
          ([⟨paserkKid 0, paserkPk 0, 86400 + 0⟩],
            Except.ok (sessionOf (List.replicate 16 1) 0 0, none))) :=
  middleware_refresh_iff [⟨paserkKid 0, paserkPk 0, 86400 + 0⟩]
    (sessionOf (List.replicate 16 1) 0 0).token 0 1
    (sessionOf (List.replicate 16 1) 0 0)
    (authenticate_sessionOf _ (List.replicate 16 1) 0 0 0 (86400 + 0)
      (by decide) (by decide) (by decide) (by decide))
    (by simp only [paserkKid, natToChars_one]; decide)

/- ### Lobby and game model (src/gq-server/src/model/game.rs and
src/gq-server/src/mutation/lobby.rs)

The `lobby` and `games` tables are explicit state. The schema itself is
not under src/; per the specification's data model, `games` seats are NOT
NULL while `lobby` seats are nullable, so the INSERT..SELECT of a lobby
row with an empty seat fails as a database error. -/

/-- The errors of model/game.rs `Error`, extended with the generic
database failure surfaced through `sqlx` (constraint violations). -/
inductive GameError
  | CannotStartGame (id : Uuid)
  | MissingPlayer
  | DbFailure
  deriving DecidableEq, Repr

/-- The GraphQL-level errors of mutation/lobby.rs: the literal strings
"Game not found" and "Game is full". -/
inductive LobbyError
  | GameNotFound
  | GameFull
  deriving DecidableEq, Repr

/-- A row of the `lobby` table (struct `LobbyGame`). -/
structure LobbyRow where
  id : Uuid
  created_by : Uuid
  player1 : Option Uuid
  player2 : Option Uuid
  deriving DecidableEq, Repr

/-- A row of the `games` table (struct `Game`). -/
structure GameRow where
  id : Uuid
  created_by : Uuid
  player1 : Uuid
  player2 : Uuid
  deriving DecidableEq, Repr

/-- The `lobby` and `games` tables. -/
structure GameDb where
  lobby : List LobbyRow
  games : List GameRow
  deriving DecidableEq, Repr

/-- `LobbyGame::fetch`: SELECT the lobby row by id. -/
def fetchLobby (st : GameDb) (id : Uuid) : Option LobbyRow :=
  st.lobby.find? (fun r => r.id == id)

/-- `Game::fetch`: SELECT the games row by id. -/
def fetchGame (st : GameDb) (id : Uuid) : Option GameRow :=
  st.games.find? (fun r => r.id == id)

/-- `Game::start`: inside one transaction, INSERT INTO games SELECT the
lobby rows with the given id (a primary-key conflict with an existing
games row, or a NULL seat, fails the INSERT as a database error), require
exactly one row inserted, DELETE the lobby rows with the id, require
exactly one row deleted, then commit. The DELETE removes the very rows
the INSERT selected, so both affected-row counts are the one filter
length and the two `ensure!` checks collapse to a single test here. Any
failure rolls the whole transaction back, returning the original state. -/
def Game.start (st : GameDb) (id : Uuid) : GameDb × Except GameError Uuid :=
  if (st.lobby.filter (fun r => r.id == id)).any (fun r =>
      st.games.any (fun g => g.id == r.id)
        || r.player1.isNone || r.player2.isNone) then
    (st, Except.error GameError.DbFailure)
  else if (st.lobby.filter (fun r => r.id == id)).length = 1 then
    (⟨st.lobby.filter (fun r => !(r.id == id)),
      st.games ++ (st.lobby.filter (fun r => r.id == id)).map (fun r =>
        ⟨r.id, r.created_by, r.player1.getD [], r.player2.getD []⟩)⟩,
      Except.ok id)
  else (st, Except.error (GameError.CannotStartGame id))

/-- `LobbyGame::start`: destructure the lobby game, requiring both seats
to be filled before issuing any database statement; then run
`Game::start`. -/
def LobbyGame.start (st : GameDb) (game : LobbyRow) :
    GameDb × Except GameError GameRow :=
  match game.player1 with
  | none => (st, Except.error GameError.MissingPlayer)
  | some p1 =>
    match game.player2 with
    | none => (st, Except.error GameError.MissingPlayer)
    | some p2 =>
      match Game.start st game.id with
      | (st1, Except.ok gid) => (st1, Except.ok ⟨gid, game.created_by, p1, p2⟩)
      | (st1, Except.error e) => (st1, Except.error e)

/-- `LobbyGame::update`: UPDATE lobby SET player1, player2 WHERE id. -/
def updateLobby (st : GameDb) (game : LobbyRow) : GameDb :=
  ⟨st.lobby.map (fun r =>
      if r.id == game.id then ⟨r.id, r.created_by, game.player1, game.player2⟩
      else r),
    st.games⟩

/-- `LobbyMutations::join_game`: fetch the lobby game (absent id gives
"Game not found"); seat the caller in `player1` if empty, else in
`player2` if empty, else return "Game is full" without touching the row;
persist the seats via `LobbyGame::update`. -/
def join_game (st : GameDb) (game_id caller : Uuid) :
    GameDb × Except LobbyError Uuid :=
  match fetchLobby st game_id with
  | none => (st, Except.error LobbyError.GameNotFound)
  | some game =>
    if game.player1.isNone then
      (updateLobby st ⟨game.id, game.created_by, some caller, game.player2⟩,
        Except.ok game.id)
    else if game.player2.isNone then
      (updateLobby st ⟨game.id, game.created_by, game.player1, some caller⟩,
        Except.ok game.id)
    else (st, Except.error LobbyError.GameFull)

/-- C4: Start atomicity: if `Game::start(g)` succeeds then afterwards the
lobby has no row with id g and the games table has one; if it fails (any
affected-row count not exactly 1, or a constraint violation) both tables
are unchanged; and g never ends up in both collections simultaneously. -/
theorem game_start_atomic (st : GameDb) (g : Uuid) :
    (∀ st1 gid, Game.start st g = (st1, Except.ok gid) →
      fetchLobby st1 g = none ∧ (fetchGame st1 g).isSome = true)
    ∧ (∀ st1 e, Game.start st g = (st1, Except.error e) → st1 = st)
    ∧ (¬ ((fetchLobby st g).isSome = true ∧ (fetchGame st g).isSome = true) →
        ¬ ((fetchLobby (Game.start st g).1 g).isSome = true ∧
          (fetchGame (Game.start st g).1 g).isSome = true)) := by
  have herr : ∀ st1 e, Game.start st g = (st1, Except.error e) → st1 = st := by
    intro st1 e h
    unfold Game.start at h
    split at h
    · injection h with h1 _
      exact h1.symm
    · split at h
      · injection h with _ h2
        exact absurd h2 (by simp)
      · injection h with h1 _
        exact h1.symm
  have hsucc : ∀ st1 gid, Game.start st g = (st1, Except.ok gid) →
      fetchLobby st1 g = none ∧ (fetchGame st1 g).isSome = true := by
    intro st1 gid h
    unfold Game.start at h
    split at h
    · exact absurd h (by simp)
    · next hc1 =>
      split at h
      · next hlen =>
        injection h with hst _
        subst hst
        rw [Bool.not_eq_true] at hc1
        obtain ⟨r0, hr0⟩ := List.length_eq_one.mp hlen
        have hr0mem : r0 ∈ st.lobby.filter (fun r => r.id == g) := by
          rw [hr0]
          exact List.mem_cons_self ..
        have hr0g : (r0.id == g) = true := (List.mem_filter.mp hr0mem).2
        have hr0conds := List.any_eq_false.mp hc1 r0 hr0mem
        rw [Bool.or_eq_true, Bool.or_eq_true] at hr0conds
        push_neg at hr0conds
        constructor
        · unfold fetchLobby
          rw [List.find?_eq_none]
          intro x hx
          have := (List.mem_filter.mp hx).2
          simp only [Bool.not_eq_eq_eq_not, Bool.not_true] at this
          simp [this]
        · unfold fetchGame
          simp only
          rw [List.find?_append]
          have hnone : st.games.find? (fun r => r.id == g) = none := by
            rw [List.find?_eq_none]
            intro x hx
            have hng : ¬ st.games.any (fun q => q.id == r0.id) = true :=
              hr0conds.1.1
            rw [List.any_eq_true] at hng
            push_neg at hng
            have := hng x hx
            have hge : r0.id = g := by
              have := hr0g
              simpa using this
            rw [← hge]
            simpa using hng x hx
          rw [hnone, Option.none_or, hr0]
          simp only [List.map_cons, List.map_nil]
          rw [List.find?_cons_of_pos _ (by simpa using hr0g)]
          rfl
      · exact absurd h (by simp)
  refine ⟨hsucc, herr, ?_⟩
  intro hpre
  rcases hres : Game.start st g with ⟨st1, r⟩
  cases r with
  | ok gid =>
    have hl := (hsucc st1 gid hres).1
    simp [hl]
  | error e =>
    have hst := herr st1 e hres
    simpa [hst] using hpre

/-- Witness for start atomicity at concrete inputs. -/
theorem game_start_atomic_witness :
    fetchLobby (Game.start
      ⟨[⟨List.replicate 16 7, List.replicate 16 1, some (List.replicate 16 2),
        some (List.replicate 16 3)⟩], []⟩ (List.replicate 16 7)).1
      (List.replicate 16 7) = none ∧
    (fetchGame (Game.start
      ⟨[⟨List.replicate 16 7, List.replicate 16 1, some (List.replicate 16 2),
        some (List.replicate 16 3)⟩], []⟩ (List.replicate 16 7)).1
      (List.replicate 16 7)).isSome = true :=
  (game_start_atomic
    ⟨[⟨List.replicate 16 7, List.replicate 16 1, some (List.replicate 16 2),
      some (List.replicate 16 3)⟩], []⟩ (List.replicate 16 7)).1
    _ (List.replicate 16 7) rfl

theorem find?_map_of_pred {α} (f : α → α) (p : α → Bool)
    (hp : ∀ a, p (f a) = p a) (l : List α) :
    (l.map f).find? p = (l.find? p).map f := by
  induction l with
  | nil => rfl
  | cons a t ih =>
    cases hb : p a with
    | true =>
      rw [List.map_cons, List.find?_cons_of_pos _ (by rw [hp a]; exact hb),
        List.find?_cons_of_pos _ hb]
      rfl
    | false =>
      rw [List.map_cons, List.find?_cons_of_neg _ (by simp [hp a, hb]),
        List.find?_cons_of_neg _ (by simp [hb]), ih]

/-- `LobbyGame::update` changes only the seats of the rows with the
game's id, so fetching by that id afterwards returns the updated row. -/
theorem fetchLobby_update (st : GameDb) (g : Uuid) (game game2 : LobbyRow)
    (hrow : fetchLobby st g = some game) (hid : game2.id = game.id) :
    fetchLobby (updateLobby st game2) g =
      some ⟨game.id, game.created_by, game2.player1, game2.player2⟩ := by
  unfold fetchLobby updateLobby at *
  simp only
  rw [find?_map_of_pred _ _ (by
    intro a
    cases hc : (a.id == game2.id) with
    | true => simp [hc]
    | false => simp [hc]), hrow]
  simp [hid]

/-- C9: Seat ordering in `join_game`: on a lobby game with both seats
empty, the first call seats the caller as `player1`; a second call on the
resulting state seats its caller as `player2`; a third call returns
"Game is full" without modifying the state; and `join_game` on an id
absent from the lobby returns "Game not found". -/
theorem join_game_seats (st : GameDb) (g u1 u2 u3 : Uuid) (game : LobbyRow)
    (hrow : fetchLobby st g = some game)
    (hp1 : game.player1 = none) (hp2 : game.player2 = none) :
    (∃ st1 st2,
      join_game st g u1 = (st1, Except.ok game.id) ∧
      fetchLobby st1 g = some ⟨game.id, game.created_by, some u1, none⟩ ∧
      join_game st1 g u2 = (st2, Except.ok game.id) ∧
      fetchLobby st2 g = some ⟨game.id, game.created_by, some u1, some u2⟩ ∧
      join_game st2 g u3 = (st2, Except.error LobbyError.GameFull))
    ∧ (∀ g2, fetchLobby st g2 = none →
        join_game st g2 u1 = (st, Except.error LobbyError.GameNotFound)) := by
  obtain ⟨gid0, cb0, gp1, gp2⟩ := game
  replace hp1 : gp1 = none := hp1
  replace hp2 : gp2 = none := hp2
  subst hp1
  subst hp2
  dsimp only at hrow ⊢
  have hfetch1 := fetchLobby_update st g ⟨gid0, cb0, none, none⟩
    ⟨gid0, cb0, some u1, none⟩ hrow rfl
  have hfetch2 := fetchLobby_update
    (updateLobby st ⟨gid0, cb0, some u1, none⟩) g
    ⟨gid0, cb0, some u1, none⟩ ⟨gid0, cb0, some u1, some u2⟩ hfetch1 rfl
  constructor
  · refine ⟨updateLobby st ⟨gid0, cb0, some u1, none⟩,
      updateLobby (updateLobby st ⟨gid0, cb0, some u1, none⟩)
        ⟨gid0, cb0, some u1, some u2⟩, ?_, hfetch1, ?_, hfetch2, ?_⟩
    · unfold join_game
      rw [hrow]
      simp
    · unfold join_game
      rw [hfetch1]
      simp
    · unfold join_game
      rw [hfetch2]
      simp
  · intro g2 h
    unfold join_game
    rw [h]

/-- Witness for seat ordering at concrete inputs. -/
theorem join_game_seats_witness :
    (∃ st1 st2,
      join_game ⟨[⟨List.replicate 16 7, List.replicate 16 1, none, none⟩], []⟩
          (List.replicate 16 7) (List.replicate 16 2) =
        (st1, Except.ok (List.replicate 16 7)) ∧
      fetchLobby st1 (List.replicate 16 7) =
        some ⟨List.replicate 16 7, List.replicate 16 1,
          some (List.replicate 16 2), none⟩ ∧
      join_game st1 (List.replicate 16 7) (List.replicate 16 3) =
        (st2, Except.ok (List.replicate 16 7)) ∧
      fetchLobby st2 (List.replicate 16 7) =
        some ⟨List.replicate 16 7, List.replicate 16 1,
          some (List.replicate 16 2), some (List.replicate 16 3)⟩ ∧
      join_game st2 (List.replicate 16 7) (List.replicate 16 4) =
        (st2, Except.error LobbyError.GameFull))
    ∧ (∀ g2, fetchLobby
          ⟨[⟨List.replicate 16 7, List.replicate 16 1, none, none⟩], []⟩ g2 =
            none →
        join_game ⟨[⟨List.replicate 16 7, List.replicate 16 1, none, none⟩], []⟩
            g2 (List.replicate 16 2) =
          (⟨[⟨List.replicate 16 7, List.replicate 16 1, none, none⟩], []⟩,
            Except.error LobbyError.GameNotFound)) :=
  join_game_seats ⟨[⟨List.replicate 16 7, List.replicate 16 1, none, none⟩], []⟩
    (List.replicate 16 7) (List.replicate 16 2) (List.replicate 16 3)
    (List.replicate 16 4)
    ⟨List.replicate 16 7, List.replicate 16 1, none, none⟩ rfl rfl rfl

/-- C10: Starting an under-filled lobby game through the typed path: when
`player1` or `player2` is `None`, `LobbyGame::start` returns the
`MissingPlayer` error before issuing any database statement, so the lobby
and games tables are unchanged. -/
theorem lobby_start_missing_player (st : GameDb) (game : LobbyRow)
    (h : game.player1 = none ∨ game.player2 = none) :
    LobbyGame.start st game = (st, Except.error GameError.MissingPlayer) := by
  unfold LobbyGame.start
  rcases h with h | h
  · rw [h]
  · cases hp1 : game.player1 with
    | none => rfl
    | some p1 => rw [h]

/-- Witness for the missing-player early return at concrete inputs. -/
theorem lobby_start_missing_player_witness :
    LobbyGame.start
        ⟨[⟨List.replicate 16 7, List.replicate 16 1, none, none⟩], []⟩
        ⟨List.replicate 16 7, List.replicate 16 1,
          some (List.replicate 16 2), none⟩ =
      (⟨[⟨List.replicate 16 7, List.replicate 16 1, none, none⟩], []⟩,
        Except.error GameError.MissingPlayer) :=
  lobby_start_missing_player _ _ (Or.inr rfl)
